import Mathlib

/-!
Verification of the FS9721 example packet decoder (`src/docs/example_parser.c`)
against its natural-language specification.

The C program decodes a fixed 14-byte multimeter packet into a 7-byte data
buffer: per-byte sequence-tag validation, nibble merging, and a bit-order
correction (per-byte bit reversal).  Bytes are modelled as `Nat` with explicit
`% 256` truncation where the C `uint8_t` arithmetic truncates.
-/

set_option maxRecDepth 8192

namespace FS9721

/-- `#define PACKET_LENGTH 14` from the source. -/
def PACKET_LENGTH : Nat := 14

/-- `#define DATA_LENGTH 7` from the source: the size of the `data` array of
the `multimeter_reading` union. -/
def DATA_LENGTH : Nat := 7

/-- The loop of `reverse` in the source, with explicit fuel so the definition
is structurally recursive and kernel-evaluable:

```c
for (in >>= 1; in; in >>= 1) { r <<= 1; r |= in & 1; cnt--; }
r <<= cnt;
return r;
```

Each state `(inp, r, cnt)` is the loop state at a loop-condition test (the
caller performs the initial `in >>= 1`).  `r` is a `uint8_t`, so every update
and the final shift truncate with `% 256`.  Returns `none` when the fuel runs
out before `inp` reaches `0`, i.e. when the modelled iteration bound is
exceeded. -/
def reverseLoop : Nat → Nat → Nat → Nat → Option Nat
  | 0, inp, r, cnt =>
      if inp = 0 then some ((r <<< cnt) % 256) else none
  | fuel + 1, inp, r, cnt =>
      if inp = 0 then some ((r <<< cnt) % 256)
      else reverseLoop fuel (inp >>> 1) (((r <<< 1) ||| (inp &&& 1)) % 256) (cnt - 1)

/-- `reverse` from the source: `uint8_t reverse(uint8_t in)`.  The argument is
a `uint8_t`, modelled by the `% 256` on the initial value of `r = in`.  Fuel 8
covers every byte input (the loop runs at most 7 iterations for `in < 256`);
the `getD 0` default is never reached on byte inputs (see the termination
theorem for claim C6). -/
def reverse (inp : Nat) : Nat :=
  (reverseLoop 8 ((inp % 256) >>> 1) (inp % 256) 7).getD 0

/-- `lookup_digit` from the source: the `switch` on `segments` mapping
7-segment patterns to printable characters.  The C source declares the result
as `char` but the case arms are written as one-character string literals with
`""` as the default; this is modelled as `Option Char`, the empty string
(the "no mapping" result) being `none`. -/
def lookup_digit (segments : Nat) : Option Char :=
  if segments = 0x7D then some '0'
  else if segments = 0x05 then some '1'
  else if segments = 0x5B then some '2'
  else if segments = 0x1F then some '3'
  else if segments = 0x27 then some '4'
  else if segments = 0x3E then some '5'
  else if segments = 0x7E then some '6'
  else if segments = 0x15 then some '7'
  else if segments = 0x7F then some '8'
  else if segments = 0x3F then some '9'
  else if segments = 0x68 then some 'L'
  else none

/-- The eleven segment patterns recognised by `lookup_digit` (its `case`
labels, in source order). -/
def recognizedPatterns : List Nat :=
  [0x7D, 0x05, 0x5B, 0x1F, 0x27, 0x3E, 0x7E, 0x15, 0x7F, 0x3F, 0x68]

/-- Failure results of `parse_packet`.  The C function signals failure by
returning `NULL`; per the spec's function-level contract this is refined into
the two error kinds, `SequenceMismatch` carrying the loop index at which the
C code executes `return NULL`. -/
inductive DecodeError where
  | invalidLength : DecodeError
  | sequenceMismatch : Nat → DecodeError
deriving DecidableEq

/-- The validation-and-merge loop of `parse_packet`, walking the input bytes
with the loop counter `i`:

```c
for (int i=0; i < PACKET_LENGTH; i++) {
    if ((i+1) != (data[i] >> 4)) { return NULL; }
    uint8_t mask = data[i] & 0x0F;
    if ((i%2) == 0) { mask = mask << 4; }
    packet->data[i/2] |= mask;
}
```

`buf` is the `data` array of the output.  The stored values are ORs of
4-bit nibbles (one shifted left by 4), hence always below 256, so the
`uint8_t` store needs no truncation. -/
def parseLoop : Nat → List Nat → List Nat → Except DecodeError (List Nat)
  | _, [], buf => Except.ok buf
  | i, b :: rest, buf =>
      if i + 1 ≠ b >>> 4 then Except.error (DecodeError.sequenceMismatch i)
      else
        let mask := b &&& 0x0F
        let mask2 := if i % 2 = 0 then mask <<< 4 else mask
        parseLoop (i + 1) rest (buf.set (i / 2) (buf.getD (i / 2) 0 ||| mask2))

/-- Modelled from the spec: the implicit `InvalidLength` precondition check
("input is not exactly 14 bytes — must be checked before step 1 begins,
surfaced as a distinct error kind").  This check is missing from the source:
the C `parse_packet` receives a bare `uint8_t *` with no length parameter and
unconditionally reads 14 bytes. -/
def lengthOk (data : List Nat) : Bool :=
  data.length == PACKET_LENGTH

/-- Indices `i` for which the bit-order-correction loop of `parse_packet`
accesses `packet->data[i]`, exactly as the source writes the loop:

```c
for (int i=0; i < PACKET_LENGTH; i++) {
    packet->data[i] = reverse(packet->data[i]);
}
```

Note the bound is `PACKET_LENGTH` (14), not `DATA_LENGTH` (7), although
`data` is declared `uint8_t data[DATA_LENGTH]`. -/
def reverseStepIndices : List Nat := List.range PACKET_LENGTH

/-- Effect of the bit-order-correction loop on the cells of the 7-byte
`data` buffer: iteration `i` overwrites `data[i]` with `reverse (data[i])`,
so each in-bounds cell `0..6` is bit-reversed exactly once.  Iterations
`i = 7..13` of the source loop fall outside the declared 7-byte buffer (see
`reverseStepIndices` and claim C4); they touch no in-model cell and cannot
change cells `0..6`, since iteration `i` accesses only `data[i]`. -/
def reverseStep (buf : List Nat) : List Nat := buf.map reverse

/-- `parse_packet` from the source, over an input byte list: the sequence
check and nibble merge (first loop), then the bit-order correction (the
`REVERSE_DATA` block, always compiled in since the flag is defined).  `NULL`
returns are modelled as `Except.error`.  The output buffer starts as
`DATA_LENGTH` zero bytes (`calloc` zero-fills; the source's allocation size
`sizeof(uint8_t)` instead of `sizeof(multimeter_reading)` is a memory-layout
slip outside this value-level model).  Inputs of the wrong length yield
`DecodeError.invalidLength` via `lengthOk`, which is modelled from the
spec. -/
def parse_packet (data : List Nat) : Except DecodeError (List Nat) :=
  if lengthOk data then
    (parseLoop 0 data (List.replicate DATA_LENGTH 0)).map reverseStep
  else
    Except.error DecodeError.invalidLength

/-- The literal test packet from `main`. -/
def goldenPacket : List Nat :=
  [0x17, 0x27, 0x3D, 0x47, 0x5D, 0x65, 0x7B,
   0x89, 0x97, 0xA0, 0xB8, 0xC0, 0xD4, 0xE1]

end FS9721

namespace FS9721

/-- C5: for every byte `x`, `reverse (reverse x) = x`; moreover
`reverse 0x00 = 0x00`, `reverse 0xFF = 0xFF`, `reverse 0x80 = 0x01` and
`reverse 0x01 = 0x80`. -/
theorem reverse_involutive_and_anchors :
    (∀ x, x < 256 → reverse (reverse x) = x) ∧
      reverse 0x00 = 0x00 ∧ reverse 0xFF = 0xFF ∧
      reverse 0x80 = 0x01 ∧ reverse 0x01 = 0x80 := by
  decide

/-- C5 witness: the involution evaluated at the concrete byte `0xB6`. -/
theorem reverse_involutive_witness : reverse (reverse 0xB6) = 0xB6 :=
  reverse_involutive_and_anchors.1 0xB6 (by decide)

/-- C6: `reverse` is total on all 256 byte values: for every byte input the
loop reaches `inp = 0` within its iteration bound (so the fuel-modelled loop
returns `some` result rather than exhausting), and the returned value is a
byte. -/
theorem reverse_total_on_bytes :
    ∀ x, x < 256 →
      (reverseLoop 8 (x % 256 >>> 1) (x % 256) 7).isSome = true ∧
        reverse x < 256 := by
  decide

/-- C6 witness: termination and byte-range of the result at input `0x80`. -/
theorem reverse_total_witness :
    (reverseLoop 8 (0x80 % 256 >>> 1) (0x80 % 256) 7).isSome = true ∧
      reverse 0x80 < 256 :=
  reverse_total_on_bytes 0x80 (by decide)

/-- C7: `lookup_digit` maps exactly the eleven recognised segment patterns to
`'0'`–`'9'` and `'L'`, and every other input yields the empty "no mapping"
result `none` rather than an error. -/
theorem lookup_digit_exact_mapping :
    (lookup_digit 0x7D = some '0' ∧ lookup_digit 0x05 = some '1' ∧
     lookup_digit 0x5B = some '2' ∧ lookup_digit 0x1F = some '3' ∧
     lookup_digit 0x27 = some '4' ∧ lookup_digit 0x3E = some '5' ∧
     lookup_digit 0x7E = some '6' ∧ lookup_digit 0x15 = some '7' ∧
     lookup_digit 0x7F = some '8' ∧ lookup_digit 0x3F = some '9' ∧
     lookup_digit 0x68 = some 'L') ∧
    ∀ x, x ∉ recognizedPatterns → lookup_digit x = none := by
  refine ⟨by decide, ?_⟩
  intro x hx
  simp only [recognizedPatterns, List.mem_cons, List.not_mem_nil, or_false,
    not_or] at hx
  obtain ⟨h1, h2, h3, h4, h5, h6, h7, h8, h9, h10, h11⟩ := hx
  simp [lookup_digit, h1, h2, h3, h4, h5, h6, h7, h8, h9, h10, h11]

/-- C7 witness: the unmapped input `0x00` yields `none`. -/
theorem lookup_digit_witness : lookup_digit 0x00 = none :=
  lookup_digit_exact_mapping.2 0x00 (by decide)

/-- C10: `lookup_digit` is injective on its recognised domain: distinct
patterns among the eleven recognised ones are mapped to distinct results. -/
theorem lookup_digit_injective_on_domain :
    ∀ a ∈ recognizedPatterns, ∀ b ∈ recognizedPatterns,
      a ≠ b → lookup_digit a ≠ lookup_digit b := by
  decide

/-- C10 witness: injectivity evaluated at the pair `(0x7D, 0x05)`. -/
theorem lookup_digit_injective_witness :
    lookup_digit 0x7D ≠ lookup_digit 0x05 :=
  lookup_digit_injective_on_domain 0x7D (by decide) 0x05 (by decide) (by decide)

/-- C8: decoding the literal packet from `main` succeeds — every byte's high
nibble equals its 1-based position — and yields the 7-byte
merged-then-bit-reversed buffer `[0xEE, 0xEB, 0xAB, 0x9D, 0x0E, 0x01, 0x82]`. -/
theorem golden_packet_decodes :
    (∀ i, i < PACKET_LENGTH → goldenPacket.getD i 0 >>> 4 = i + 1) ∧
      parse_packet goldenPacket =
        Except.ok [0xEE, 0xEB, 0xAB, 0x9D, 0x0E, 0x01, 0x82] ∧
      ([0xEE, 0xEB, 0xAB, 0x9D, 0x0E, 0x01, 0x82] : List Nat).length =
        DATA_LENGTH := by
  refine ⟨by decide, rfl, rfl⟩

/-- C3: any input whose length is not exactly 14 bytes fails with the
distinct `InvalidLength` error, and the outcome is decided by the length
alone, before any per-byte sequence check: every input of the same length,
whatever its byte values, yields the same `InvalidLength` error, so no byte
of the input is ever consulted. -/
theorem invalid_length_rejected (data : List Nat)
    (h : data.length ≠ PACKET_LENGTH) :
    parse_packet data = Except.error DecodeError.invalidLength ∧
      ∀ other : List Nat, other.length = data.length →
        parse_packet other = Except.error DecodeError.invalidLength := by
  constructor
  · simp [parse_packet, lengthOk, h]
  · intro other ho
    have h2 : other.length ≠ PACKET_LENGTH := by rw [ho]; exact h
    simp [parse_packet, lengthOk, h2]

/-- C3 witness: the 1-byte input `[0x17]` is rejected with `InvalidLength`,
as is every other 1-byte input. -/
theorem invalid_length_witness :
    parse_packet [0x17] = Except.error DecodeError.invalidLength ∧
      ∀ other : List Nat, other.length = ([0x17] : List Nat).length →
        parse_packet other = Except.error DecodeError.invalidLength :=
  invalid_length_rejected [0x17] (by decide)

/-- C4 (refuting the claim as a code bug): the bit-order-correction loop of
the source iterates over `reverseStepIndices = [0, …, 13]` — its bound is
`PACKET_LENGTH`, not `DATA_LENGTH` — so it is NOT the case that every
accessed index of the `data` buffer is below `DATA_LENGTH = 7`: the accessed
indices 7–13, e.g. 13, lie outside the declared 7-byte buffer. -/
theorem reverse_step_index_out_of_bounds :
    reverseStepIndices.length = PACKET_LENGTH ∧
      ¬(∀ i ∈ reverseStepIndices, i < DATA_LENGTH) ∧
      13 ∈ reverseStepIndices ∧ DATA_LENGTH ≤ 13 := by
  decide

/-- C9: decoding is deterministic and a pure function of its input: any two
runs of `parse_packet` on equal input byte lists return identical results —
the identical decoded buffer on success, the identical error on failure —
and the result depends on nothing but the input bytes (the model threads no
other state). -/
theorem parse_packet_deterministic (d1 d2 : List Nat) (h : d1 = d2) :
    parse_packet d1 = parse_packet d2 := by
  rw [h]

/-- C9 witness: two runs on the literal packet from `main` agree. -/
theorem parse_packet_deterministic_witness :
    parse_packet goldenPacket = parse_packet goldenPacket :=
  parse_packet_deterministic goldenPacket goldenPacket rfl

/-- Helper: if every high nibble before position `m` matches its expected
sequence tag (relative to the running counter `i`) and the nibble at `m`
does not, the validation loop stops with `sequenceMismatch` at the absolute
index `i + m`. -/
theorem parseLoop_mismatch (bytes : List Nat) : ∀ i m buf,
    m < bytes.length →
    (∀ j, j < m → bytes.getD j 0 >>> 4 = i + j + 1) →
    bytes.getD m 0 >>> 4 ≠ i + m + 1 →
    parseLoop i bytes buf = Except.error (DecodeError.sequenceMismatch (i + m)) := by
  induction bytes with
  | nil =>
    intro i m buf hm _ _
    exact absurd hm (by simp)
  | cons b rest ih =>
    intro i m buf hm hpre hmiss
    cases m with
    | zero =>
      have hb : i + 1 ≠ b >>> 4 := by
        intro he
        exact hmiss (by simpa using he.symm)
      simp [parseLoop, hb]
    | succ m' =>
      have hb : b >>> 4 = i + 1 := by simpa using hpre 0 (Nat.succ_pos m')
      have hcond : ¬ (i + 1 ≠ b >>> 4) := by rw [hb]; exact fun h => h rfl
      rw [parseLoop, if_neg hcond]
      have := ih (i + 1) m' (List.set buf (i / 2)
          (List.getD buf (i / 2) 0 ||| if i % 2 = 0 then (b &&& 15) <<< 4 else b &&& 15))
        (by simpa using Nat.lt_of_succ_lt_succ (by simpa using hm))
        (fun j hj => by
          have := hpre (j + 1) (Nat.succ_lt_succ hj)
          simpa [Nat.add_assoc, Nat.add_comm, Nat.add_left_comm] using this)
        (by
          have h1 : rest.getD m' 0 >>> 4 ≠ i + (m' + 1) + 1 := by simpa using hmiss
          intro hc
          apply h1
          rw [hc]; ring)
      rw [this]
      have harith : i + 1 + m' = i + (m' + 1) := by omega
      rw [harith]

/-- C2: for any 14-byte input, if the high nibbles match their 1-based
positions strictly before index `m` and mismatch at `m`, decoding fails with
`SequenceMismatch` carrying exactly the first mismatching index `m`, no
reading is produced, and no byte after index `m` is processed: every other
input agreeing with this one on bytes `0..m` fails identically, whatever its
later bytes hold. -/
theorem sequence_mismatch_fails_fast (data : List Nat)
    (hlen : data.length = PACKET_LENGTH) (m : Nat) (hm : m < PACKET_LENGTH)
    (hbefore : ∀ j, j < m → data.getD j 0 >>> 4 = j + 1)
    (hmiss : data.getD m 0 >>> 4 ≠ m + 1) :
    parse_packet data = Except.error (DecodeError.sequenceMismatch m) ∧
      ∀ other : List Nat, other.length = PACKET_LENGTH →
        (∀ j, j ≤ m → other.getD j 0 = data.getD j 0) →
        parse_packet other = Except.error (DecodeError.sequenceMismatch m) := by
  have main : ∀ d : List Nat, d.length = PACKET_LENGTH →
      (∀ j, j ≤ m → d.getD j 0 = data.getD j 0) →
      parse_packet d = Except.error (DecodeError.sequenceMismatch m) := by
    intro d hd hagree
    have h1 : lengthOk d = true := by simp [lengthOk, hd]
    have h2 : parseLoop 0 d (List.replicate DATA_LENGTH 0) =
        Except.error (DecodeError.sequenceMismatch (0 + m)) := by
      apply parseLoop_mismatch
      · rw [hd]; exact hm
      · intro j hj
        rw [hagree j (Nat.le_of_lt hj), Nat.zero_add]
        exact hbefore j hj
      · rw [hagree m (Nat.le_refl m), Nat.zero_add]
        exact hmiss
    rw [Nat.zero_add] at h2
    simp [parse_packet, h1, h2, Except.map]
  exact ⟨main data hlen (fun j _ => rfl), fun other ho hagree => main other ho hagree⟩

/-- C2 witness: the golden packet with byte 3 corrupted to `0x57` (high
nibble 5 where position demands 4) fails with `SequenceMismatch 3`, and so
does every 14-byte input agreeing with it on bytes `0..3`. -/
theorem sequence_mismatch_witness :
    parse_packet [0x17, 0x27, 0x3D, 0x57, 0x5D, 0x65, 0x7B,
        0x89, 0x97, 0xA0, 0xB8, 0xC0, 0xD4, 0xE1] =
      Except.error (DecodeError.sequenceMismatch 3) ∧
    ∀ other : List Nat, other.length = PACKET_LENGTH →
      (∀ j, j ≤ 3 → other.getD j 0 =
        List.getD [0x17, 0x27, 0x3D, 0x57, 0x5D, 0x65, 0x7B,
          0x89, 0x97, 0xA0, 0xB8, 0xC0, 0xD4, 0xE1] j 0) →
      parse_packet other = Except.error (DecodeError.sequenceMismatch 3) :=
  sequence_mismatch_fails_fast _ (by decide) 3 (by decide) (by decide) (by decide)

/-- Helper: a list of length 14 is a literal 14-element list. -/
theorem length14_destruct (data : List Nat) (h : data.length = 14) :
    ∃ b0 b1 b2 b3 b4 b5 b6 b7 b8 b9 b10 b11 b12 b13,
      data = [b0, b1, b2, b3, b4, b5, b6, b7, b8, b9, b10, b11, b12, b13] := by
  rcases data with _|⟨b0,_|⟨b1,_|⟨b2,_|⟨b3,_|⟨b4,_|⟨b5,_|⟨b6,_|⟨b7,_|⟨b8,_|⟨b9,_|⟨b10,_|⟨b11,_|⟨b12,_|⟨b13,_|⟨b14,data⟩⟩⟩⟩⟩⟩⟩⟩⟩⟩⟩⟩⟩⟩⟩ <;>
    simp only [List.length_nil, List.length_cons] at h <;>
    first
      | omega
      | exact ⟨b0, b1, b2, b3, b4, b5, b6, b7, b8, b9, b10, b11, b12, b13, rfl⟩

/-- C1: for every 14-byte input whose high nibbles equal the 1-based
positions 1..14, decoding succeeds and output byte `k` (k = 0..6) is the
bit-reversal of `((low nibble of byte 2k) <<< 4) ||| (low nibble of byte
2k+1)`. -/
theorem merge_and_reverse_formula (data : List Nat)
    (hlen : data.length = PACKET_LENGTH)
    (hbytes : ∀ b ∈ data, b < 256)
    (hseq : ∀ i, i < PACKET_LENGTH → data.getD i 0 >>> 4 = i + 1) :
    ∃ out, parse_packet data = Except.ok out ∧
      ∀ k, k < DATA_LENGTH →
        out.getD k 0 =
          reverse (((data.getD (2 * k) 0 &&& 0x0F) <<< 4) |||
            (data.getD (2 * k + 1) 0 &&& 0x0F)) := by
  obtain ⟨b0, b1, b2, b3, b4, b5, b6, b7, b8, b9, b10, b11, b12, b13, rfl⟩ :=
    length14_destruct data hlen
  have h0 : b0 >>> 4 = 1 := hseq 0 (by decide)
  have h1 : b1 >>> 4 = 2 := hseq 1 (by decide)
  have h2 : b2 >>> 4 = 3 := hseq 2 (by decide)
  have h3 : b3 >>> 4 = 4 := hseq 3 (by decide)
  have h4 : b4 >>> 4 = 5 := hseq 4 (by decide)
  have h5 : b5 >>> 4 = 6 := hseq 5 (by decide)
  have h6 : b6 >>> 4 = 7 := hseq 6 (by decide)
  have h7 : b7 >>> 4 = 8 := hseq 7 (by decide)
  have h8 : b8 >>> 4 = 9 := hseq 8 (by decide)
  have h9 : b9 >>> 4 = 10 := hseq 9 (by decide)
  have h10 : b10 >>> 4 = 11 := hseq 10 (by decide)
  have h11 : b11 >>> 4 = 12 := hseq 11 (by decide)
  have h12 : b12 >>> 4 = 13 := hseq 12 (by decide)
  have h13 : b13 >>> 4 = 14 := hseq 13 (by decide)
  refine ⟨[reverse ((b0 &&& 15) <<< 4 ||| (b1 &&& 15)),
           reverse ((b2 &&& 15) <<< 4 ||| (b3 &&& 15)),
           reverse ((b4 &&& 15) <<< 4 ||| (b5 &&& 15)),
           reverse ((b6 &&& 15) <<< 4 ||| (b7 &&& 15)),
           reverse ((b8 &&& 15) <<< 4 ||| (b9 &&& 15)),
           reverse ((b10 &&& 15) <<< 4 ||| (b11 &&& 15)),
           reverse ((b12 &&& 15) <<< 4 ||| (b13 &&& 15))], ?_, ?_⟩
  · simp [parse_packet, lengthOk, parseLoop, reverseStep, Except.map, DATA_LENGTH,
      PACKET_LENGTH, h0, h1, h2, h3, h4, h5, h6, h7, h8, h9, h10, h11, h12, h13]
  · intro k hk
    have hk7 : k < 7 := hk
    interval_cases k <;> rfl

/-- C1 witness: the merge-and-reverse formula evaluated on the golden packet
from `main`. -/
theorem merge_and_reverse_witness :
    ∃ out, parse_packet goldenPacket = Except.ok out ∧
      ∀ k, k < DATA_LENGTH →
        out.getD k 0 =
          reverse (((goldenPacket.getD (2 * k) 0 &&& 0x0F) <<< 4) |||
            (goldenPacket.getD (2 * k + 1) 0 &&& 0x0F)) :=
  merge_and_reverse_formula goldenPacket (by decide) (by decide) (by decide)

end FS9721
